import Mathlib

/-!
Verification development for the id-verify-ai reconciliation engine.

The definitions below are a shallow embedding of the TypeScript source
(`src/lib/textMatching.ts` and the post-OCR validation core of
`src/components/kyc/DocumentUpload.tsx`).  Strings are modelled as Lean
`String`/`List Char`; JavaScript numbers are modelled as exact rationals
(`ℚ`); JavaScript regular-expression scanning (global, left-to-right,
leftmost match, greedy quantifiers with backtracking) is implemented
directly for each concrete pattern appearing in the source.  Character
classes follow the non-unicode JavaScript semantics: `\w` is
`[A-Za-z0-9_]`, `\d` is `[0-9]`, `\s` is the ECMAScript whitespace set,
and `toLowerCase` is modelled by ASCII case folding (no character handled
by the source differs from this).
-/

/-- JavaScript `\d`: a decimal digit. -/
def isDigitC (c : Char) : Bool :=
  48 ≤ c.toNat && c.toNat ≤ 57

/-- JavaScript `\w` (non-unicode): `[A-Za-z0-9_]`. -/
def isWordC (c : Char) : Bool :=
  (48 ≤ c.toNat && c.toNat ≤ 57) ||
  (65 ≤ c.toNat && c.toNat ≤ 90) ||
  (97 ≤ c.toNat && c.toNat ≤ 122) ||
  c.toNat == 95

/-- JavaScript `\s`: the ECMAScript whitespace and line-terminator set. -/
def isSpaceC (c : Char) : Bool :=
  let n := c.toNat
  n == 9 || n == 10 || n == 11 || n == 12 || n == 13 || n == 32 ||
  n == 160 || n == 5760 || (8192 ≤ n && n ≤ 8202) || n == 8232 ||
  n == 8233 || n == 8239 || n == 8287 || n == 12288 || n == 65279

/-- ASCII case folding, modelling `String.prototype.toLowerCase` on the
character set handled by the source. -/
def lowerC (c : Char) : Char :=
  if 65 ≤ c.toNat && c.toNat ≤ 90 then Char.ofNat (c.toNat + 32) else c

/-- One pass of `.replace(/\s+/g, ' ')`: every maximal whitespace run
becomes a single ASCII space.  The flag records whether the previous
character belonged to a whitespace run already emitted. -/
def collapseAux : Bool → List Char → List Char
  | _, [] => []
  | prevSpace, c :: rest =>
    if isSpaceC c then
      if prevSpace then collapseAux true rest
      else ' ' :: collapseAux true rest
    else c :: collapseAux false rest

/-- Drop trailing JavaScript whitespace. -/
def trimRight : List Char → List Char
  | [] => []
  | c :: rest =>
    match trimRight rest with
    | [] => if isSpaceC c then [] else [c]
    | r => c :: r

/-- JavaScript `String.prototype.trim` on a character list. -/
def trimChars (l : List Char) : List Char :=
  trimRight (l.dropWhile isSpaceC)

/-- `normalizeText` from `textMatching.ts`: lower-case, delete every
character outside `\w` and `\s`, collapse whitespace runs to one space,
and trim. -/
def normalizeText (s : String) : String :=
  ⟨trimChars (collapseAux false
    (((s.data.map lowerC)).filter (fun c => isWordC c || isSpaceC c)))⟩

/-- `extractDigits` from `textMatching.ts`: `.replace(/\D/g, '')`. -/
def extractDigits (s : String) : String :=
  ⟨s.data.filter isDigitC⟩

/-- Whether `pat` occurs at the head of `l` (helper for `includes`). -/
def startsWithList : List Char → List Char → Bool
  | _, [] => true
  | [], _ :: _ => false
  | c :: t, p :: ps => c == p && startsWithList t ps

/-- JavaScript `String.prototype.includes` on character lists. -/
def containsList : List Char → List Char → Bool
  | [], pat => startsWithList [] pat
  | c :: rest, pat => startsWithList (c :: rest) pat || containsList rest pat

/-- JavaScript `haystack.includes(needle)`. -/
def strIncludes (haystack needle : String) : Bool :=
  containsList haystack.data needle.data

/-- Adjacent character pairs of a list (the bigrams of a string). -/
def bigrams : List Char → List (Char × Char)
  | a :: b :: t => (a, b) :: bigrams (b :: t)
  | _ => []

/-- Multiset-intersection size of two bigram lists, as computed by the
`string-similarity` package: walk the second list, consuming one matching
occurrence from the first list per hit. -/
def bigramInter : List (Char × Char) → List (Char × Char) → Nat
  | _, [] => 0
  | avail, g :: gs =>
    if avail.contains g then 1 + bigramInter (avail.erase g) gs
    else bigramInter avail gs

/-- `stringSimilarity.compareTwoStrings`: strip all whitespace from both
strings, return 1 on equality, 0 when either has fewer than two
characters, and otherwise the Dice coefficient on bigram multisets. -/
def compareTwoStrings (s1 s2 : String) : ℚ :=
  let f := s1.data.filter (fun c => !isSpaceC c)
  let s := s2.data.filter (fun c => !isSpaceC c)
  if f = s then 1
  else if f.length < 2 || s.length < 2 then 0
  else (2 * (bigramInter (bigrams f) (bigrams s)) : ℚ) /
    ((f.length + s.length - 2 : ℕ) : ℚ)

/-- `getSimilarity` from `textMatching.ts`: normalize both strings, then
compare. -/
def getSimilarity (str1 str2 : String) : ℚ :=
  compareTwoStrings (normalizeText str1) (normalizeText str2)

/-- The character before the scan position, viewed by `\b`: is it a word
character (out-of-range counts as non-word)? -/
def prevIsWord : Option Char → Bool
  | some c => isWordC c
  | none => false

/-- Exactly `n` characters of class `p` (the regex piece `X{n}`). -/
def takeExact (p : Char → Bool) : Nat → List Char → Option (List Char × List Char)
  | 0, l => some ([], l)
  | _ + 1, [] => none
  | n + 1, c :: l =>
    if p c then (takeExact p n l).map (fun r => (c :: r.1, r.2)) else none

/-- `\b` placed after a word character: next char absent or non-word. -/
def boundaryAfter : List Char → Bool
  | [] => true
  | c :: _ => !isWordC c

/-- `\s+`, maximal munch (every use in the source is followed by a
non-space atom, so backtracking into the run can never succeed). -/
def spacePlus (l : List Char) : Option (List Char × List Char) :=
  let sp := l.takeWhile isSpaceC
  if sp.isEmpty then none else some (sp, l.dropWhile isSpaceC)

/-- Ordered alternatives for `X?` on class `p`: greedy, so the one-char
consumption is tried before the empty one. -/
def optOne (p : Char → Bool) : List Char → List (List Char × List Char)
  | [] => [([], [])]
  | c :: rest =>
    if p c then [([c], rest), ([], c :: rest)] else [([], c :: rest)]

/-- Left-to-right global scan (the semantics of `String.match` with the
`g` flag): at each position try the pattern; on success emit the match
and resume after it, otherwise advance one character.  `fuel` is a
decreasing counter bounded by the text length; every pattern in the
source consumes at least one character, so the fuel never runs out. -/
def scanG {α : Type} (tryP : Option Char → List Char → Option (α × List Char × List Char)) :
    Nat → Option Char → List Char → List (α × List Char)
  | 0, _, _ => []
  | _ + 1, _, [] => []
  | fuel + 1, prev, c :: rest =>
    match tryP prev (c :: rest) with
    | some (a, consumed, after) =>
      (a, consumed) ::
        scanG tryP fuel
          (match consumed.getLast? with | some x => some x | none => prev) after
    | none => scanG tryP fuel (some c) rest

/-- All matches of a pattern in a string, with their payloads. -/
def scanMatches {α : Type}
    (tryP : Option Char → List Char → Option (α × List Char × List Char))
    (s : String) : List (α × List Char) :=
  scanG tryP (s.data.length + 1) none s.data

/-- The regex `\b\d{4}\s?\d{4}\s?\d{4}\b` (Aadhaar pattern 1, also the
classifier structural pattern). -/
def tryAadhaar4x3 (prev : Option Char) (cs : List Char) :
    Option (Unit × List Char × List Char) :=
  if prevIsWord prev then none else
  (takeExact isDigitC 4 cs).bind fun r1 =>
  (optOne isSpaceC r1.2).findSome? fun s1 =>
  (takeExact isDigitC 4 s1.2).bind fun r2 =>
  (optOne isSpaceC r2.2).findSome? fun s2 =>
  (takeExact isDigitC 4 s2.2).bind fun r3 =>
  if boundaryAfter r3.2 then
    some ((), r1.1 ++ s1.1 ++ r2.1 ++ s2.1 ++ r3.1, r3.2)
  else none

/-- The regex `\b\d{12}\b` (Aadhaar pattern 2). -/
def tryDigits12 (prev : Option Char) (cs : List Char) :
    Option (Unit × List Char × List Char) :=
  if prevIsWord prev then none else
  (takeExact isDigitC 12 cs).bind fun r =>
  if boundaryAfter r.2 then some ((), r.1, r.2) else none

/-- Ordered candidate matches of the two Aadhaar patterns, as iterated by
`findAadhaarInText`. -/
def aadhaarCandidates (text : String) : List String :=
  ((scanMatches tryAadhaar4x3 text) ++ (scanMatches tryDigits12 text)).map
    (fun r => String.mk r.2)

/-- Result record of the field matchers (`found`, `confidence`, and the
optional extracted substring). -/
structure MatchOut where
  found : Bool
  confidence : ℚ
  extracted : Option String
deriving DecidableEq

/-- The candidate loop of `findAadhaarInText`: exact digit equality gives
confidence 1, otherwise similarity at least 0.9 is accepted at that
confidence, otherwise continue. -/
def aadhaarGo (inputDigits : String) : List String → MatchOut
  | [] => ⟨false, 0, none⟩
  | m :: rest =>
    if extractDigits m = inputDigits then ⟨true, 1, some m⟩
    else
      let similarity := getSimilarity inputDigits (extractDigits m)
      if similarity ≥ 9/10 then ⟨true, similarity, some m⟩
      else aadhaarGo inputDigits rest

/-- `findAadhaarInText` from `textMatching.ts`. -/
def findAadhaarInText (aadhaarInput documentText : String) : MatchOut :=
  aadhaarGo (extractDigits aadhaarInput) (aadhaarCandidates documentText)

/-- `[\s-]`, the separator class of the formatted phone patterns. -/
def isSpaceDash (c : Char) : Bool :=
  isSpaceC c || c == '-'

/-- The regex `\b[6-9]\d{9}\b` (standard Indian mobile). -/
def tryMobile (prev : Option Char) (cs : List Char) :
    Option (Unit × List Char × List Char) :=
  if prevIsWord prev then none else
  match cs with
  | [] => none
  | c :: r =>
    if 54 ≤ c.toNat && c.toNat ≤ 57 then
      (takeExact isDigitC 9 r).bind fun g =>
      if boundaryAfter g.2 then some ((), c :: g.1, g.2) else none
    else none

/-- The regex `\b\d{10}\b` (any bare 10-digit run). -/
def tryTenDigits (prev : Option Char) (cs : List Char) :
    Option (Unit × List Char × List Char) :=
  if prevIsWord prev then none else
  (takeExact isDigitC 10 cs).bind fun g =>
  if boundaryAfter g.2 then some ((), g.1, g.2) else none

/-- The regex `\b\d{3}[\s-]?\d{3}[\s-]?\d{4}\b` (3-3-4 formatted). -/
def tryFormatted334 (prev : Option Char) (cs : List Char) :
    Option (Unit × List Char × List Char) :=
  if prevIsWord prev then none else
  (takeExact isDigitC 3 cs).bind fun r1 =>
  (optOne isSpaceDash r1.2).findSome? fun s1 =>
  (takeExact isDigitC 3 s1.2).bind fun r2 =>
  (optOne isSpaceDash r2.2).findSome? fun s2 =>
  (takeExact isDigitC 4 s2.2).bind fun r3 =>
  if boundaryAfter r3.2 then
    some ((), r1.1 ++ s1.1 ++ r2.1 ++ s2.1 ++ r3.1, r3.2)
  else none

/-- The regex `\b\+91[\s-]?\d{10}\b`.  Note `+` is a non-word character,
so the leading `\b` holds exactly when the preceding character is a word
character. -/
def tryPlus91 (prev : Option Char) (cs : List Char) :
    Option (Unit × List Char × List Char) :=
  if !prevIsWord prev then none else
  match cs with
  | '+' :: '9' :: '1' :: r =>
    (optOne isSpaceDash r).findSome? fun s1 =>
    (takeExact isDigitC 10 s1.2).bind fun g =>
    if boundaryAfter g.2 then
      some ((), '+' :: '9' :: '1' :: (s1.1 ++ g.1), g.2)
    else none
  | _ => none

/-- Ordered candidate matches of the four phone patterns, as iterated by
`findPhoneInText`. -/
def phoneCandidates (text : String) : List String :=
  (scanMatches tryMobile text ++ scanMatches tryTenDigits text ++
   scanMatches tryFormatted334 text ++ scanMatches tryPlus91 text).map
    (fun r => String.mk r.2)

/-- JavaScript `.slice(-10)` on a digit string. -/
def sliceLast10 (s : String) : String :=
  ⟨s.data.drop (s.data.length - 10)⟩

/-- The candidate loop of `findPhoneInText`: exact equality of last-10
windows gives confidence 1, otherwise similarity at least 0.8 is
accepted at that confidence. -/
def phoneGo (last10Digits : String) : List String → MatchOut
  | [] => ⟨false, 0, none⟩
  | m :: rest =>
    let matchLast10 := sliceLast10 (extractDigits m)
    if matchLast10 = last10Digits then ⟨true, 1, some m⟩
    else
      let similarity := getSimilarity last10Digits matchLast10
      if similarity ≥ 4/5 then ⟨true, similarity, some m⟩
      else phoneGo last10Digits rest

/-- `findPhoneInText` from `textMatching.ts`. -/
def findPhoneInText (phoneInput documentText : String) : MatchOut :=
  phoneGo (sliceLast10 (extractDigits phoneInput)) (phoneCandidates documentText)

/-- JavaScript `String.prototype.split(' ')`: split on every single
space character (accumulator holds the current piece reversed). -/
def splitSpAux (cur : List Char) : List Char → List (List Char)
  | [] => [cur.reverse]
  | c :: rest =>
    if c == ' ' then cur.reverse :: splitSpAux [] rest
    else splitSpAux (c :: cur) rest

/-- JavaScript `s.split(' ')`. -/
def splitSpace (s : String) : List String :=
  (splitSpAux [] s.data).map String.mk

/-- `findNameInText` from `textMatching.ts`. -/
def findNameInText (name documentText : String) (threshold : ℚ := 7/10) : MatchOut :=
  let normalizedName := normalizeText name
  let normalizedText := normalizeText documentText
  let nameParts := (splitSpace normalizedName).filter (fun part => part.length > 1)
  if nameParts.length = 0 then ⟨false, 0, none⟩
  else if strIncludes normalizedText normalizedName then ⟨true, 1, some name⟩
  else
    let foundParts := nameParts.filter (fun part => strIncludes normalizedText part)
    let partialConfidence : ℚ := (foundParts.length : ℚ) / (nameParts.length : ℚ)
    if partialConfidence ≥ 3/5 then
      ⟨true, partialConfidence, some (String.intercalate " " foundParts)⟩
    else
      let words := splitSpace normalizedText
      let idxs := if words.length < nameParts.length then []
        else List.range (words.length - nameParts.length + 1)
      let best := idxs.foldl
        (fun acc i =>
          let window := String.intercalate " " ((words.drop i).take nameParts.length)
          let similarity := getSimilarity normalizedName window
          if similarity > acc.1 then (similarity, window) else acc)
        ((0 : ℚ), "")
      ⟨decide (best.1 ≥ threshold), best.1,
        if best.1 ≥ threshold then some best.2 else none⟩

/-- The classifier keyword list from `isAadhaarDocument`. -/
def aadhaarKeywords : List String :=
  ["aadhaar", "aadhar", "uidai", "unique identification",
   "government of india", "भारत सरकार", "आधार"]

/-- Result record of the document classifier. -/
structure AadhaarCheck where
  isAadhaar : Bool
  confidence : ℚ
deriving DecidableEq

/-- `isAadhaarDocument` from `textMatching.ts`: count keywords whose
normalized form occurs in the normalized text, add 0.3 when the
structural 4-4-4 digit pattern is present, clamp to 1. -/
def isAadhaarDocument (documentText : String) : AadhaarCheck :=
  let normalizedText := normalizeText documentText
  let keywordMatches :=
    (aadhaarKeywords.filter
      (fun keyword => strIncludes normalizedText (normalizeText keyword))).length
  let hasAadhaarNumber := !(scanMatches tryAadhaar4x3 documentText).isEmpty
  let confidence : ℚ :=
    (keywordMatches : ℚ) / (aadhaarKeywords.length : ℚ) +
      (if hasAadhaarNumber then 3/10 else 0)
  ⟨decide (confidence > 3/10), min confidence 1⟩

/-- The three-letter month keys of the `monthMap` table ("sept" is
covered by its ordered-alternation overlap with "sep"). -/
def monthKeys : List (List Char) :=
  ["jan".data, "feb".data, "mar".data, "apr".data, "may".data, "jun".data,
   "jul".data, "aug".data, "sep".data, "oct".data, "nov".data, "dec".data]

/-- `monthMap` lookup on a three-letter lowercase key. -/
def monthNum (k : List Char) : Nat :=
  if k = "jan".data then 1 else if k = "feb".data then 2
  else if k = "mar".data then 3 else if k = "apr".data then 4
  else if k = "may".data then 5 else if k = "jun".data then 6
  else if k = "jul".data then 7 else if k = "aug".data then 8
  else if k = "sep".data then 9 else if k = "oct".data then 10
  else if k = "nov".data then 11 else if k = "dec".data then 12
  else 0

/-- The regex piece `(jan|feb|...|dec)\w*`, case-insensitive: a month
alternation (all alternatives are distinct three-letter prefixes, and the
ordered alternation always prefers "sep" over "sept", so the capture is
the three letters, with `\w*` consuming the remaining word characters).
Returns (the captured three letters in original case, consumed
characters, rest). -/
def monthTok (cs : List Char) : Option (List Char × List Char × List Char) :=
  match cs with
  | a :: b :: c :: rest =>
    if monthKeys.contains [lowerC a, lowerC b, lowerC c] then
      some ([a, b, c], a :: b :: c :: rest.takeWhile isWordC, rest.dropWhile isWordC)
    else none
  | _ => none

/-- Greedy ordered alternatives for a bounded digit repetition
`\d{lo,hi}` (the lengths are listed longest first). -/
def digitsVar (lens : List Nat) (cs : List Char) : List (List Char × List Char) :=
  lens.filterMap (fun n => takeExact isDigitC n cs)

/-- `[\/\-\.]`: the date separator class (slash, dash, dot).  Some
occurrences in the DocumentUpload.tsx revision write this class with the
dash unescaped between the escaped slash and dot, which as written is an
out-of-order character range that a strict ECMAScript parser rejects;
the embedding models the evident intent, the three-character set. -/
def isDateSep (c : Char) : Bool :=
  c == '/' || c == '-' || c == '.'

/-- The class of a slash or a dash separator. -/
def isSlashDash (c : Char) : Bool :=
  c == '/' || c == '-'

/-- One character of class `p`. -/
def oneOf (p : Char → Bool) : List Char → Option (List Char × List Char)
  | c :: rest => if p c then some ([c], rest) else none
  | [] => none

/-- The regex `\b\d{1,2}[\/\-\.]\d{1,2}[\/\-\.]\d{2,4}\b` with the three
digit groups captured (day, month, year order as consumed). -/
def tryNumericDMY (prev : Option Char) (cs : List Char) :
    Option ((List Char × List Char × List Char) × List Char × List Char) :=
  if prevIsWord prev then none else
  (digitsVar [2, 1] cs).findSome? fun d1 =>
  (oneOf isDateSep d1.2).bind fun p1 =>
  (digitsVar [2, 1] p1.2).findSome? fun d2 =>
  (oneOf isDateSep d2.2).bind fun p2 =>
  (digitsVar [4, 3, 2] p2.2).findSome? fun d3 =>
  if boundaryAfter d3.2 then
    some ((d1.1, d2.1, d3.1), d1.1 ++ p1.1 ++ d2.1 ++ p2.1 ++ d3.1, d3.2)
  else none

/-- The regex `\b\d{4}[\/\-\.]\d{1,2}[\/\-\.]\d{1,2}\b` with captures in
(year, month, day) order. -/
def tryNumericYMD (prev : Option Char) (cs : List Char) :
    Option ((List Char × List Char × List Char) × List Char × List Char) :=
  if prevIsWord prev then none else
  (takeExact isDigitC 4 cs).bind fun y =>
  (oneOf isDateSep y.2).bind fun p1 =>
  (digitsVar [2, 1] p1.2).findSome? fun m =>
  (oneOf isDateSep m.2).bind fun p2 =>
  (digitsVar [2, 1] p2.2).findSome? fun d =>
  if boundaryAfter d.2 then
    some ((y.1, m.1, d.1), y.1 ++ p1.1 ++ m.1 ++ p2.1 ++ d.1, d.2)
  else none

/-- The regex `\b\d{1,2}\s+(jan|...)\w*\s+\d{2,4}\b`, case-insensitive,
with captures (day, month key, year). -/
def tryDayMonthYear (prev : Option Char) (cs : List Char) :
    Option ((List Char × List Char × List Char) × List Char × List Char) :=
  if prevIsWord prev then none else
  (digitsVar [2, 1] cs).findSome? fun d1 =>
  (spacePlus d1.2).bind fun sp1 =>
  (monthTok sp1.2).bind fun mt =>
  (spacePlus mt.2.2).bind fun sp2 =>
  (digitsVar [4, 3, 2] sp2.2).findSome? fun y =>
  if boundaryAfter y.2 then
    some ((d1.1, mt.1, y.1), d1.1 ++ sp1.1 ++ mt.2.1 ++ sp2.1 ++ y.1, y.2)
  else none

/-- The regex `\b(jan|...)\w*\s+\d{1,2},?\s+\d{2,4}\b`, case-insensitive,
with captures (month key, day, year). -/
def tryMonthDayYear (prev : Option Char) (cs : List Char) :
    Option ((List Char × List Char × List Char) × List Char × List Char) :=
  if prevIsWord prev then none else
  (monthTok cs).bind fun mt =>
  (spacePlus mt.2.2).bind fun sp1 =>
  (digitsVar [2, 1] sp1.2).findSome? fun d =>
  (optOne (fun c => c == ',') d.2).findSome? fun com =>
  (spacePlus com.2).bind fun sp2 =>
  (digitsVar [4, 3, 2] sp2.2).findSome? fun y =>
  if boundaryAfter y.2 then
    some ((mt.1, d.1, y.1), mt.2.1 ++ sp1.1 ++ d.1 ++ com.1 ++ sp2.1 ++ y.1, y.2)
  else none

/-- Case-insensitive literal (the pattern argument is lowercase). -/
def litCI : List Char → List Char → Option (List Char × List Char)
  | [], l => some ([], l)
  | _ :: _, [] => none
  | p :: ps, c :: rest =>
    if lowerC c == p then (litCI ps rest).map (fun r => (c :: r.1, r.2)) else none

/-- `\s*`, maximal munch (every use is followed by a non-space atom). -/
def spaceStar (l : List Char) : List Char × List Char :=
  (l.takeWhile isSpaceC, l.dropWhile isSpaceC)

/-- The ordered alternation `dob|date\s*of\s*birth|birth\s*date`,
case-insensitive, as the list of its successful parses. -/
def labelAlts (cs : List Char) : List (List Char × List Char) :=
  let a1 := litCI "dob".data cs
  let a2 := (litCI "date".data cs).bind fun r1 =>
    let s1 := spaceStar r1.2
    (litCI "of".data s1.2).bind fun r2 =>
    let s2 := spaceStar r2.2
    (litCI "birth".data s2.2).map fun r3 =>
    (r1.1 ++ s1.1 ++ r2.1 ++ s2.1 ++ r3.1, r3.2)
  let a3 := (litCI "birth".data cs).bind fun r1 =>
    let s1 := spaceStar r1.2
    (litCI "date".data s1.2).map fun r2 =>
    (r1.1 ++ s1.1 ++ r2.1, r2.2)
  [a1, a2, a3].filterMap id

/-- `[\s:]`. -/
def isSpaceColon (c : Char) : Bool :=
  isSpaceC c || c == ':'

/-- The regex `(?:dob|date\s*of\s*birth|birth\s*date)[\s:]*(\d{1,2}[\/\-\.]\d{1,2}[\/\-\.]\d{2,4})`,
case-insensitive, no word boundaries.  The payload is the captured date
substring together with its three digit groups. -/
def tryLabeledDate (_prev : Option Char) (cs : List Char) :
    Option ((List Char × (List Char × List Char × List Char)) × List Char × List Char) :=
  (labelAlts cs).findSome? fun lab =>
  let gap := (lab.2.takeWhile isSpaceColon, lab.2.dropWhile isSpaceColon)
  (digitsVar [2, 1] gap.2).findSome? fun d1 =>
  (oneOf isDateSep d1.2).bind fun p1 =>
  (digitsVar [2, 1] p1.2).findSome? fun d2 =>
  (oneOf isDateSep d2.2).bind fun p2 =>
  (digitsVar [4, 3, 2] p2.2).findSome? fun d3 =>
  some ((d1.1 ++ p1.1 ++ d2.1 ++ p2.1 ++ d3.1, (d1.1, d2.1, d3.1)),
    lab.1 ++ gap.1 ++ d1.1 ++ p1.1 ++ d2.1 ++ p2.1 ++ d3.1, d3.2)

/-- The regex `year\s*of\s*birth[\s:]*(\d{4})`, case-insensitive.  The
payload is the captured year digits. -/
def tryYearOfBirth (_prev : Option Char) (cs : List Char) :
    Option (List Char × List Char × List Char) :=
  (litCI "year".data cs).bind fun r1 =>
  let s1 := spaceStar r1.2
  (litCI "of".data s1.2).bind fun r2 =>
  let s2 := spaceStar r2.2
  (litCI "birth".data s2.2).bind fun r3 =>
  let gap := (r3.2.takeWhile isSpaceColon, r3.2.dropWhile isSpaceColon)
  (takeExact isDigitC 4 gap.2).bind fun y =>
  some (y.1, r1.1 ++ s1.1 ++ r2.1 ++ s2.1 ++ r3.1 ++ gap.1 ++ y.1, y.2)

/-- The slash-or-dash separated year-month-day regex of `parseInput`
(no word boundaries), captures (year, month, day). -/
def tryInputYMD (_prev : Option Char) (cs : List Char) :
    Option ((List Char × List Char × List Char) × List Char × List Char) :=
  (takeExact isDigitC 4 cs).bind fun y =>
  (oneOf isSlashDash y.2).bind fun p1 =>
  (digitsVar [2, 1] p1.2).findSome? fun m =>
  (oneOf isSlashDash m.2).bind fun p2 =>
  (digitsVar [2, 1] p2.2).findSome? fun d =>
  some ((y.1, m.1, d.1), y.1 ++ p1.1 ++ m.1 ++ p2.1 ++ d.1, d.2)

/-- The regex `(\d{1,2})[\/\-\.](\d{1,2})[\/\-\.](\d{2,4})` of
`parseInput` (no word boundaries), captures (day, month, year). -/
def tryInputDMY (_prev : Option Char) (cs : List Char) :
    Option ((List Char × List Char × List Char) × List Char × List Char) :=
  (digitsVar [2, 1] cs).findSome? fun d1 =>
  (oneOf isDateSep d1.2).bind fun p1 =>
  (digitsVar [2, 1] p1.2).findSome? fun d2 =>
  (oneOf isDateSep d2.2).bind fun p2 =>
  (digitsVar [4, 3, 2] p2.2).findSome? fun d3 =>
  some ((d1.1, d2.1, d3.1), d1.1 ++ p1.1 ++ d2.1 ++ p2.1 ++ d3.1, d3.2)

/-- The regex `\b(19|20)\d{2}\b` of `parseInput`; payload is the matched
four digits. -/
def tryYear19or20 (prev : Option Char) (cs : List Char) :
    Option (List Char × List Char × List Char) :=
  if prevIsWord prev then none else
  match cs with
  | a :: b :: r =>
    if (a == '1' && b == '9') || (a == '2' && b == '0') then
      (takeExact isDigitC 2 r).bind fun g =>
      if boundaryAfter g.2 then some (a :: b :: g.1, a :: b :: g.1, g.2) else none
    else none
  | _ => none

/-- First match of a pattern (`String.match` without the `g` flag). -/
def firstMatch {α : Type}
    (tryP : Option Char → List Char → Option (α × List Char × List Char))
    (s : String) : Option (α × List Char) :=
  (scanMatches tryP s).head?

/-- `parseInt` on a string of decimal digits. -/
def digitsToNat (l : List Char) : Nat :=
  l.foldl (fun acc c => 10 * acc + (c.toNat - 48)) 0

/-- The two-digit year expansion `parseInt(y.length === 2 ? `20${y}` : y)`. -/
def expandYear (y : List Char) : Nat :=
  if y.length = 2 then digitsToNat ('2' :: '0' :: y) else digitsToNat y

/-- A `{day, month, year}` triple; `none` models a `NaN` component. -/
structure DateTriple where
  d : Option Nat
  m : Option Nat
  y : Option Nat
deriving DecidableEq

/-- `parseInput` of `findDateInText` (DocumentUpload.tsx): normalize the
declared date into components.  When the digit string has exactly eight
digits the `yearFirst` test `/^\d{4}/` necessarily holds, so the source
returns the year-month-day slicing of the digits. -/
def parseInput (input : String) : DateTriple :=
  let digits := extractDigits input
  if digits.data.length = 8 && digits.data.all isDigitC then
    ⟨some (digitsToNat ((digits.data.drop 6).take 2)),
     some (digitsToNat ((digits.data.drop 4).take 2)),
     some (digitsToNat (digits.data.take 4))⟩
  else
    match firstMatch tryInputYMD input with
    | some (c, _) =>
      ⟨some (digitsToNat c.2.2), some (digitsToNat c.2.1), some (digitsToNat c.1)⟩
    | none =>
      match firstMatch tryInputDMY input with
      | some (c, _) =>
        ⟨some (digitsToNat c.1), some (digitsToNat c.2.1), some (expandYear c.2.2)⟩
      | none =>
        match firstMatch tryYear19or20 input with
        | some (c, _) => ⟨none, none, some (digitsToNat c)⟩
        | none => ⟨none, none, none⟩

/-- `parseMatch` of `findDateInText` (DocumentUpload.tsx): parse an OCR
date candidate into components, trying the branches in source order.  In
the eight-digit fallback the `asYmd.y` component is parsed from four
digit characters and can never be `NaN`, so the `asDmy` alternative of
the source is dead code. -/
def parseMatch (text : String) : DateTriple :=
  let lower : String := ⟨text.data.map lowerC⟩
  match firstMatch tryDayMonthYear lower with
  | some (c, _) =>
    ⟨some (digitsToNat c.1), some (monthNum c.2.1), some (expandYear c.2.2)⟩
  | none =>
  match firstMatch tryMonthDayYear lower with
  | some (c, _) =>
    ⟨some (digitsToNat c.2.1), some (monthNum c.1), some (expandYear c.2.2)⟩
  | none =>
  match firstMatch tryNumericDMY lower with
  | some (c, _) =>
    ⟨some (digitsToNat c.1), some (digitsToNat c.2.1), some (expandYear c.2.2)⟩
  | none =>
  match firstMatch tryNumericYMD lower with
  | some (c, _) =>
    ⟨some (digitsToNat c.2.2), some (digitsToNat c.2.1), some (digitsToNat c.1)⟩
  | none =>
  match firstMatch tryLabeledDate lower with
  | some (c, _) =>
    ⟨some (digitsToNat c.2.1), some (digitsToNat c.2.2.1), some (expandYear c.2.2.2)⟩
  | none =>
  match firstMatch tryYearOfBirth lower with
  | some (c, _) => ⟨none, none, some (digitsToNat c)⟩
  | none =>
    let digits := extractDigits lower
    if digits.data.length = 8 then
      ⟨some (digitsToNat ((digits.data.drop 6).take 2)),
       some (digitsToNat ((digits.data.drop 4).take 2)),
       some (digitsToNat (digits.data.take 4))⟩
    else if digits.data.length = 4 then ⟨none, none, some (digitsToNat digits.data)⟩
    else ⟨none, none, none⟩

/-- Ordered date candidates produced by scanning the document with the
six patterns of `findDateInText`.  The loop body sets
`dateText = match[1] || match[0]`: for a pattern with a capturing group
the candidate is the capture — the month token for the two month-name
patterns (their month alternation is a capturing group), the numeric
date for the labelled pattern (its label is a non-capturing group), the
year for the year-of-birth pattern — and only the pure numeric patterns,
which have no group, contribute their full match. -/
def dateCandidates (text : String) : List String :=
  (scanMatches tryNumericDMY text).map (fun r => String.mk r.2) ++
  (scanMatches tryNumericYMD text).map (fun r => String.mk r.2) ++
  (scanMatches tryDayMonthYear text).map (fun r => String.mk r.1.2.1) ++
  (scanMatches tryMonthDayYear text).map (fun r => String.mk r.1.1) ++
  (scanMatches tryLabeledDate text).map (fun r => String.mk r.1.1) ++
  (scanMatches tryYearOfBirth text).map (fun r => String.mk r.1)

/-- The candidate loop of `findDateInText` (DocumentUpload.tsx
revision): year-only match at 0.85; component score 0.34/0.33/0.33 with
the 0.66 and 0.34 thresholds; digit-similarity fallback at 0.6. -/
def dateGo (dateInput : String) (input : DateTriple) : List String → MatchOut
  | [] => ⟨false, 0, none⟩
  | dateText :: rest =>
    let m := parseMatch dateText
    let yearOnly := input.y.isSome && m.d.isNone && m.m.isNone &&
      (match m.y, input.y with
       | some a, some b => a == b
       | _, _ => false)
    if yearOnly then ⟨true, 17/20, some dateText⟩
    else
      let score : ℚ :=
        (match input.d, m.d with
         | some a, some b => if a = b then 17/50 else 0
         | _, _ => 0) +
        (match input.m, m.m with
         | some a, some b => if a = b then 33/100 else 0
         | _, _ => 0) +
        (match input.y, m.y with
         | some a, some b => if a = b then 33/100 else 0
         | _, _ => 0)
      if score ≥ 33/50 then ⟨true, min 1 (score + 1/5), some dateText⟩
      else if score ≥ 17/50 then ⟨true, score, some dateText⟩
      else
        let similarity := getSimilarity (extractDigits dateInput) (extractDigits dateText)
        if similarity ≥ 3/5 then ⟨true, similarity, some dateText⟩
        else dateGo dateInput input rest

/-- `findDateInText` (DocumentUpload.tsx revision, the one the design
document declares authoritative). -/
def findDateInText (dateInput documentText : String) : MatchOut :=
  dateGo dateInput (parseInput dateInput) (dateCandidates documentText)

/-- Severity of a per-field validation entry. -/
inductive Severity where
  | success
  | warning
  | error
deriving DecidableEq

/-- Overall validation status (`ValidationResult.status`). -/
inductive VStatus where
  | pending
  | validating
  | valid
  | invalid
  | warning
deriving DecidableEq

/-- One per-field validation entry of `validationResults`. -/
structure FieldV where
  found : Bool
  confidence : ℚ
  message : String
  severity : Severity
deriving DecidableEq

/-- JavaScript `Math.round` on the nonnegative rationals occurring here. -/
def jsRound (q : ℚ) : ℤ :=
  ⌊q + 1/2⌋

/-- The rounded percentage interpolated into the entry messages. -/
def pct (q : ℚ) : ℤ :=
  jsRound (q * 100)

/-- The `name` entry built by `validateDocumentData`. -/
def nameValidation (r : MatchOut) : FieldV :=
  let p := pct r.confidence
  ⟨r.found, r.confidence,
   if r.found then s!"Name found with {p}% confidence"
   else "Name not found in document. Please ensure the document is clear and matches your input.",
   if r.found then (if r.confidence ≥ 4/5 then .success else .warning) else .error⟩

/-- The `idNumber` entry built by `validateDocumentData`. -/
def aadhaarValidation (r : MatchOut) : FieldV :=
  let p := pct r.confidence
  ⟨r.found, r.confidence,
   if r.found then s!"Aadhaar number verified with {p}% confidence"
   else "Aadhaar number not found. Please check if the document is clear and complete.",
   if r.found then (if r.confidence ≥ 9/10 then .success else .warning) else .error⟩

/-- The `dateOfBirth` entry built by `validateDocumentData` (a miss is
only a warning). -/
def dobValidation (r : MatchOut) : FieldV :=
  let p := pct r.confidence
  ⟨r.found, r.confidence,
   if r.found then s!"Date of birth found with {p}% confidence"
   else "Date of birth not clearly visible. This might be due to document quality or format.",
   if r.found then (if r.confidence ≥ 7/10 then .success else .warning) else .warning⟩

/-- The `phone` entry built by `validateDocumentData` (a miss is only a
warning; any hit is a success). -/
def phoneValidation (r : MatchOut) : FieldV :=
  let p := pct r.confidence
  ⟨r.found, r.confidence,
   if r.found then s!"Phone number found with {p}% confidence"
   else "Phone number not visible in document. This is optional and doesn\x27t affect verification.",
   if r.found then .success else .warning⟩

/-- The aggregation step of `validateDocumentData`: critical errors
(name, idNumber) give `invalid`; otherwise any warning gives `warning`;
otherwise `valid`. -/
def overallStatusOf (nameV idV dobV phoneV : FieldV) : VStatus :=
  let criticalErrors :=
    nameV.severity == Severity.error || idV.severity == Severity.error
  let hasWarnings :=
    nameV.severity == Severity.warning || idV.severity == Severity.warning ||
    dobV.severity == Severity.warning || phoneV.severity == Severity.warning
  if criticalErrors then .invalid
  else if hasWarnings then .warning
  else .valid

/-- The `extractedData` record of a successful validation. -/
structure ExtractedData where
  name : Option String
  idNumber : Option String
  dateOfBirth : Option String
  phone : Option String
deriving DecidableEq

/-- The outcome of `validateDocumentData` after OCR has produced text:
overall status, per-field entries (insertion order), extracted data, and
the raw OCR text. -/
structure DocValidation where
  status : VStatus
  validationResults : List (String × FieldV)
  extractedData : Option ExtractedData
  ocrText : Option String
deriving DecidableEq

/-- The post-OCR core of `validateDocumentData` (DocumentUpload.tsx,
lines 99-227): classifier gate first, then the four field matchers and
the aggregation.  When the gate fails the function returns at once with
a single `documentType` entry; no field matcher is applied, which is
visible here in the failure branch being a constant in the four declared
fields. -/
def validateDocumentData (name idNumber dateOfBirth emergencyContact rawText : String) :
    DocValidation :=
  let aadhaarCheck := isAadhaarDocument rawText
  if !aadhaarCheck.isAadhaar then
    ⟨.invalid,
     [("documentType",
       ⟨false, aadhaarCheck.confidence,
        "Document does not appear to be an Aadhaar card", .error⟩)],
     none, some rawText⟩
  else
    let nameResult := findNameInText name rawText
    let aadhaarResult := findAadhaarInText idNumber rawText
    let dobResult := findDateInText dateOfBirth rawText
    let phoneResult := findPhoneInText emergencyContact rawText
    let nameV := nameValidation nameResult
    let idV := aadhaarValidation aadhaarResult
    let dobV := dobValidation dobResult
    let phoneV := phoneValidation phoneResult
    ⟨overallStatusOf nameV idV dobV phoneV,
     [("name", nameV), ("idNumber", idV), ("dateOfBirth", dobV), ("phone", phoneV)],
     some ⟨nameResult.extracted, aadhaarResult.extracted,
           dobResult.extracted, phoneResult.extracted⟩,
     some rawText⟩

/-- Aggregation as worded by the claim (C2): `invalid` on a critical
miss, else `warning` when any field is missed or found below FULL
confidence, else `valid`.  Stated from the claim text, for comparison
with the code. -/
def overallStatusClaimed (n i d p : MatchOut) : VStatus :=
  if n.found = false ∨ i.found = false then .invalid
  else if n.found = false ∨ i.found = false ∨ d.found = false ∨ p.found = false ∨
    (n.found = true ∧ n.confidence < 1) ∨ (i.found = true ∧ i.confidence < 1) ∨
    (d.found = true ∧ d.confidence < 1) ∨ (p.found = true ∧ p.confidence < 1) then
    .warning
  else .valid

/-- Aggregation as amended: `warning` requires confidence below the
per-field threshold (0.8 for name, 0.9 for idNumber, 0.7 for
dateOfBirth; any found phone counts as success). -/
def overallStatusAmended (n i d p : MatchOut) : VStatus :=
  if n.found = false ∨ i.found = false then .invalid
  else if n.confidence < 4/5 ∨ i.confidence < 9/10 ∨
    d.found = false ∨ d.confidence < 7/10 ∨ p.found = false then
    .warning
  else .valid

/-! ### Helper lemmas -/

/-- The empty pattern occurs in every string. -/
theorem containsList_nil (l : List Char) : containsList l [] = true := by
  cases l <;> simp [containsList, startsWithList]

/-- A filter keeping two distinct elements has length at least two. -/
theorem two_le_length_filter {p : String → Bool} {l : List String} {a b : String}
    (ha : a ∈ l) (hb : b ∈ l) (hne : a ≠ b) (hpa : p a = true) (hpb : p b = true) :
    2 ≤ (l.filter p).length := by
  have ha' : a ∈ l.filter p := List.mem_filter.mpr ⟨ha, hpa⟩
  have hb' : b ∈ l.filter p := List.mem_filter.mpr ⟨hb, hpb⟩
  match hf : l.filter p with
  | [] => rw [hf] at ha'; cases ha'
  | [x] =>
    rw [hf] at ha' hb'
    simp only [List.mem_singleton] at ha' hb'
    exact absurd (ha'.trans hb'.symm) hne
  | _ :: _ :: _ => simp

/-- Every result of the `findAadhaarInText` candidate loop is either the
miss `⟨false, 0⟩` or a hit of confidence at least 0.9. -/
theorem aadhaarGo_spec (inp : String) (l : List String) :
    ((aadhaarGo inp l).found = true → (aadhaarGo inp l).confidence ≥ 9/10) ∧
    ((aadhaarGo inp l).found = false → (aadhaarGo inp l).confidence = 0) := by
  induction l with
  | nil => simp [aadhaarGo]
  | cons m rest ih =>
    simp only [aadhaarGo]
    split
    · exact ⟨fun _ => by norm_num, fun h => by cases h⟩
    · split
      case isTrue h => exact ⟨fun _ => h, fun hf => by cases hf⟩
      case isFalse h => exact ih

/-! ### Claim theorems -/

/-- C1 (amended): if the first candidate produced by the Aadhaar pattern
scan of the OCR text (12 digits in 4-4-4 groups with optional single
spaces, or 12 consecutive digits, both delimited by word boundaries)
carries exactly the declared digits, `findAadhaarInText` returns
`found = true`, `confidence = 1.0`, and that candidate as the extracted
substring. -/
theorem aadhaar_first_candidate_exact (input text m : String) (rest : List String)
    (hc : aadhaarCandidates text = m :: rest)
    (hd : extractDigits m = extractDigits input) :
    findAadhaarInText input text = ⟨true, 1, some m⟩ := by
  rw [findAadhaarInText, hc]
  simp [aadhaarGo, hd]

/-- C1 (counterexample): the declared digits `123456789012` occur
verbatim in `a123456789012b`, yet the matcher reports nothing found with
confidence 0, because the occurrence is not delimited by word
boundaries and so matches neither Aadhaar pattern. -/
theorem aadhaar_embedded_digits_not_found :
    strIncludes "a123456789012b" "123456789012" = true ∧
    findAadhaarInText "123456789012" "a123456789012b" = ⟨false, 0, none⟩ :=
  ⟨rfl, rfl⟩

/-- C1 (witness): the scenario input, with the grouped form as the first
and only candidate. -/
theorem aadhaar_first_candidate_exact_witness :
    findAadhaarInText "123456789012" "Aadhaar No 1234 5678 9012" =
      ⟨true, 1, some "1234 5678 9012"⟩ :=
  aadhaar_first_candidate_exact "123456789012" "Aadhaar No 1234 5678 9012"
    "1234 5678 9012" [] rfl rfl

/-- C5 (amended): whenever the declared name has at least one usable
token (length greater than 1 after normalization) and the normalized OCR
text contains the normalized full name as a contiguous substring, the
name matcher returns `found = true` with confidence 1.0 and the original
declared name as the extraction. -/
theorem name_substring_match_confidence_one (name text : String)
    (htok : ∃ part ∈ splitSpace (normalizeText name), part.length > 1)
    (hsub : strIncludes (normalizeText text) (normalizeText name) = true) :
    findNameInText name text = ⟨true, 1, some name⟩ := by
  obtain ⟨part, hmem, hlen⟩ := htok
  rw [findNameInText]
  rw [if_neg, if_pos hsub]
  intro hzero
  rw [List.length_eq_zero] at hzero
  have := List.filter_eq_nil_iff.mp hzero part hmem
  simp [hlen] at this

/-- C5 (counterexample): for the declared name `A B` (no token longer
than one character) the normalized containment holds, yet the matcher
returns `found = false` with confidence 0, because the zero-usable-token
guard precedes the substring check. -/
theorem name_short_tokens_counterexample :
    strIncludes (normalizeText "a b") (normalizeText "A B") = true ∧
    findNameInText "A B" "a b" = ⟨false, 0, none⟩ :=
  ⟨rfl, rfl⟩

/-- C5 (witness): the scenario pair, "Asha Verma" against OCR text
containing "ASHA VERMA" verbatim. -/
theorem name_substring_match_witness :
    findNameInText "Asha Verma" "ID ASHA VERMA 99" = ⟨true, 1, some "Asha Verma"⟩ :=
  name_substring_match_confidence_one "Asha Verma" "ID ASHA VERMA 99"
    (by decide) rfl

/-- C6 (amended): if the first candidate produced by the four phone
pattern scans has the same last-10-digit window as the declared phone,
`findPhoneInText` returns `found = true`, `confidence = 1.0` and that
candidate.  The grouping `98765-43210` of the original scenario matches
none of the four patterns (see the counterexample); the 3-3-4 grouping
`987-654-3210` does. -/
theorem phone_first_candidate_exact (input text m : String) (rest : List String)
    (hc : phoneCandidates text = m :: rest)
    (hd : sliceLast10 (extractDigits m) = sliceLast10 (extractDigits input)) :
    findPhoneInText input text = ⟨true, 1, some m⟩ := by
  rw [findPhoneInText, hc]
  simp [phoneGo, hd]

/-- C6 (counterexample): OCR text containing `98765-43210` verbatim, on
which the phone matcher reports `found = false` with confidence 0: a
5-5 digit grouping matches none of the four phone patterns. -/
theorem phone_five_five_grouping_not_found :
    strIncludes "98765-43210" "98765-43210" = true ∧
    findPhoneInText "9876543210" "98765-43210" = ⟨false, 0, none⟩ :=
  ⟨rfl, rfl⟩

/-- C6 (witness): declared phone `9876543210` against a 3-3-4 grouped
occurrence. -/
theorem phone_first_candidate_exact_witness :
    findPhoneInText "9876543210" "Ph 987-654-3210" = ⟨true, 1, some "987-654-3210"⟩ :=
  phone_first_candidate_exact "9876543210" "Ph 987-654-3210" "987-654-3210" []
    rfl rfl

/-- C8 (confirmed): the ID matcher result satisfies the threshold
dichotomy: confidence at least 0.9 implies `found = true`; a found
result always carries confidence at least 0.9; and a not-found result
carries confidence 0. -/
theorem aadhaar_threshold_dichotomy (input text : String) :
    ((findAadhaarInText input text).confidence ≥ 9/10 →
      (findAadhaarInText input text).found = true) ∧
    ((findAadhaarInText input text).found = true →
      (findAadhaarInText input text).confidence ≥ 9/10) ∧
    ((findAadhaarInText input text).found = false →
      (findAadhaarInText input text).confidence = 0) := by
  obtain ⟨h1, h2⟩ := aadhaarGo_spec (extractDigits input) (aadhaarCandidates text)
  rw [findAadhaarInText] at *
  refine ⟨?_, h1, h2⟩
  intro hconf
  cases hf : (aadhaarGo (extractDigits input) (aadhaarCandidates text)).found
  · rw [h2 hf] at hconf
    norm_num at hconf
  · rfl

/-- C8 (witness): at the scenario input the matcher finds the exact
grouped digits, so `found = true` and the confidence clears 0.9. -/
theorem aadhaar_threshold_dichotomy_witness :
    (findAadhaarInText "123456789012" "1234 5678 9012").found = true ∧
    (findAadhaarInText "123456789012" "1234 5678 9012").confidence ≥ 9/10 := by
  refine ⟨?_, ?_⟩
  · exact (aadhaar_threshold_dichotomy "123456789012" "1234 5678 9012").1
      (by rw [show findAadhaarInText "123456789012" "1234 5678 9012" =
        ⟨true, 1, some "1234 5678 9012"⟩ from rfl]; norm_num)
  · exact (aadhaar_threshold_dichotomy "123456789012" "1234 5678 9012").2.1
      (by rw [show findAadhaarInText "123456789012" "1234 5678 9012" =
        ⟨true, 1, some "1234 5678 9012"⟩ from rfl])

/-- C3 (confirmed): whenever the classifier reports that the OCR text is
not of the expected type, `validateDocumentData` terminates with overall
status `invalid` carrying exactly the single classification-failure
entry.  The right-hand side is a constant in the four declared fields:
no field matcher contributes to it. -/
theorem classifier_gate_short_circuits
    (name idNumber dateOfBirth emergencyContact text : String)
    (h : (isAadhaarDocument text).isAadhaar = false) :
    validateDocumentData name idNumber dateOfBirth emergencyContact text =
      ⟨.invalid,
       [("documentType",
         ⟨false, (isAadhaarDocument text).confidence,
          "Document does not appear to be an Aadhaar card", .error⟩)],
       none, some text⟩ := by
  rw [validateDocumentData]
  simp [h]

/-- C3 (witness): OCR text with no recognizable keyword and no grouped
12-digit pattern fails the gate, and the orchestrator short-circuits. -/
theorem classifier_gate_short_circuits_witness :
    validateDocumentData "A" "B" "C" "D" "hello" =
      ⟨.invalid,
       [("documentType",
         ⟨false, (isAadhaarDocument "hello").confidence,
          "Document does not appear to be an Aadhaar card", .error⟩)],
       none, some "hello"⟩ := by
  refine classifier_gate_short_circuits "A" "B" "C" "D" "hello" ?_
  rw [isAadhaarDocument]
  rw [show (aadhaarKeywords.filter
    (fun keyword => strIncludes (normalizeText "hello") (normalizeText keyword))).length = 2
    from rfl]
  rw [show scanMatches tryAadhaar4x3 "hello" = [] from rfl]
  rw [show aadhaarKeywords.length = 7 from rfl]
  norm_num

/-- Bridge a propositional `if` to its `decide` form. -/
theorem ite_decide {α : Type} (p : Prop) [Decidable p] (a b : α) :
    (if p then a else b) = (if decide p = true then a else b) := by
  by_cases h : p <;> simp [h]

set_option maxHeartbeats 1000000 in
/-- C2 (amended): the orchestrator aggregation over four arbitrary
field-matcher results is `invalid` exactly when a critical field (name,
idNumber) is not found; otherwise `warning` exactly when some field is
not found or found below its per-field threshold (0.8 for name, 0.9 for
idNumber, 0.7 for dateOfBirth; a found phone is always a success);
otherwise `valid`. -/
theorem overall_status_amended_correct (n i d p : MatchOut) :
    overallStatusOf (nameValidation n) (aadhaarValidation i)
      (dobValidation d) (phoneValidation p) = overallStatusAmended n i d p := by
  obtain ⟨nf, nc, nx⟩ := n
  obtain ⟨jf, ic, ix⟩ := i
  obtain ⟨df, dc, dx⟩ := d
  obtain ⟨pf, pc, px⟩ := p
  simp only [overallStatusOf, nameValidation, aadhaarValidation, dobValidation,
    phoneValidation, overallStatusAmended, ge_iff_le]
  simp only [lt_iff_not_le]
  simp only [ite_decide, Bool.decide_or, Bool.decide_and, decide_not, Bool.decide_coe]
  generalize decide ((4:ℚ)/5 ≤ nc) = b1
  generalize decide ((9:ℚ)/10 ≤ ic) = b2
  generalize decide ((7:ℚ)/10 ≤ dc) = b3
  revert nf jf df pf
  revert b1 b2 b3
  decide

/-- C2 (counterexample): with name found at confidence 0.9 (below full
confidence 1.0) and every other field found at confidence 1.0, the code
aggregates to `valid`, while the claim as stated demands `warning`. -/
theorem overall_status_full_confidence_counterexample :
    overallStatusOf (nameValidation ⟨true, 9/10, none⟩) (aadhaarValidation ⟨true, 1, none⟩)
      (dobValidation ⟨true, 1, none⟩) (phoneValidation ⟨true, 1, none⟩) = VStatus.valid ∧
    overallStatusClaimed ⟨true, 9/10, none⟩ ⟨true, 1, none⟩
      ⟨true, 1, none⟩ ⟨true, 1, none⟩ = VStatus.warning := by
  constructor
  · simp only [overallStatusOf, nameValidation, aadhaarValidation, dobValidation,
      phoneValidation]
    norm_num
    simp
  · simp only [overallStatusClaimed]
    norm_num

/-- C4 (amended): the classifier confidence is bounded in `[0, 1]` for
every input text; on empty input it reports `is_expected_type = false`,
but with confidence 2/7 rather than 0, because the two Devanagari
keywords normalize to the empty string, which every string contains. -/
theorem classifier_confidence_bounds :
    (∀ text : String,
      0 ≤ (isAadhaarDocument text).confidence ∧ (isAadhaarDocument text).confidence ≤ 1) ∧
    isAadhaarDocument "" = ⟨false, 2/7⟩ := by
  constructor
  · intro text
    simp only [isAadhaarDocument]
    constructor
    · apply le_min ?_ (by norm_num)
      have hA : (0:ℚ) ≤
          ((aadhaarKeywords.filter
            (fun keyword => strIncludes (normalizeText text) (normalizeText keyword))).length : ℚ) /
            (aadhaarKeywords.length : ℚ) := by positivity
      have hB : ∀ c : Bool, (0:ℚ) ≤ (if c = true then 3/10 else 0) := by
        intro c
        split <;> norm_num
      linarith [hB (!(scanMatches tryAadhaar4x3 text).isEmpty)]
    · exact min_le_right _ _
  · simp only [isAadhaarDocument]
    rw [show (aadhaarKeywords.filter
      (fun keyword => strIncludes (normalizeText "") (normalizeText keyword))).length = 2
      from rfl]
    rw [show scanMatches tryAadhaar4x3 "" = [] from rfl]
    rw [show aadhaarKeywords.length = 7 from rfl]
    norm_num

/-- C4 (counterexample): on empty input the classifier confidence is
2/7, not 0 as the claim states. -/
theorem classifier_empty_confidence_ne_zero :
    isAadhaarDocument "" = ⟨false, 2/7⟩ ∧ (2/7 : ℚ) ≠ 0 := by
  constructor
  · simp only [isAadhaarDocument]
    rw [show (aadhaarKeywords.filter
      (fun keyword => strIncludes (normalizeText "") (normalizeText keyword))).length = 2
      from rfl]
    rw [show scanMatches tryAadhaar4x3 "" = [] from rfl]
    rw [show aadhaarKeywords.length = 7 from rfl]
    norm_num
  · norm_num

/-- C10 (confirmed): for every input text the classifier confidence is
at least 2/7: normalization deletes all non-ASCII-word characters, so
the two Devanagari keywords normalize to the empty string, which every
string contains, and at least 2 of the 7 keywords always count. -/
theorem classifier_confidence_lower_bound (text : String) :
    2/7 ≤ (isAadhaarDocument text).confidence := by
  have hkm : 2 ≤ (aadhaarKeywords.filter
      (fun keyword => strIncludes (normalizeText text) (normalizeText keyword))).length := by
    refine two_le_length_filter (a := "भारत सरकार") (b := "आधार")
      (by simp [aadhaarKeywords]) (by simp [aadhaarKeywords]) (by decide) ?_ ?_
    · show strIncludes (normalizeText text) (normalizeText "भारत सरकार") = true
      rw [show normalizeText "भारत सरकार" = "" from rfl, strIncludes,
        show ("" : String).data = [] from rfl]
      exact containsList_nil _
    · show strIncludes (normalizeText text) (normalizeText "आधार") = true
      rw [show normalizeText "आधार" = "" from rfl, strIncludes,
        show ("" : String).data = [] from rfl]
      exact containsList_nil _
  simp only [isAadhaarDocument]
  apply le_min ?_ (by norm_num)
  rw [show aadhaarKeywords.length = 7 from rfl]
  have h2 : (2:ℚ) ≤ ((aadhaarKeywords.filter
      (fun keyword => strIncludes (normalizeText text) (normalizeText keyword))).length : ℚ) := by
    exact_mod_cast hkm
  have hB : ∀ c : Bool, (0:ℚ) ≤ (if c = true then 3/10 else 0) := by
    intro c
    split <;> norm_num
  push_cast
  linarith [hB (!(scanMatches tryAadhaar4x3 text).isEmpty)]

/-- C7 (code bug): the claim states the intended behavior of the design
document, but the code has a capture slip.  The loop body
`dateText = match[1] || match[0]` is meant to select the captured date
of the labelled patterns (whose label deliberately uses a non-capturing
group), yet the two month-name patterns capture their month alternation,
so for a match like `14 Jul 1995` the candidate handed to `parseMatch`
is the bare token `Jul`.  That token parses to an all-undefined triple
and contains no digits, so every month-name candidate scores 0 and
falls through — the month-name parsing branches of `parseMatch` are
unreachable from the scan.  At the failing input the code returns
`found = false` with confidence 0 where the claim requires
`found = true` with confidence at least 0.86. -/
theorem date_month_capture_bug :
    dateCandidates "Born 14 Jul 1995" = ["Jul"] ∧
    findDateInText "1995-07-14" "Born 14 Jul 1995" = ⟨false, 0, none⟩ := by
  refine ⟨rfl, ?_⟩
  rw [findDateInText,
    show dateCandidates "Born 14 Jul 1995" = ["Jul"] from rfl,
    show parseInput "1995-07-14" = ⟨some 14, some 7, some 1995⟩ from rfl]
  simp only [dateGo, show parseMatch "Jul" = ⟨none, none, none⟩ from rfl,
    show getSimilarity (extractDigits "1995-07-14") (extractDigits "Jul") = 0 from rfl]
  norm_num

theorem toNat_ofNat_valid {n : Nat} (h : n.isValidChar) : (Char.ofNat n).toNat = n := by
  unfold Char.ofNat
  rw [dif_pos h]
  rfl

theorem lowerC_lowerC (c : Char) : lowerC (lowerC c) = lowerC c := by
  unfold lowerC
  by_cases h : 65 ≤ c.toNat && c.toNat ≤ 90
  · rw [if_pos h]
    have hb : 65 ≤ c.toNat ∧ c.toNat ≤ 90 := by simpa using h
    have hv : (c.toNat + 32).isValidChar := Or.inl (by omega)
    have ht : (Char.ofNat (c.toNat + 32)).toNat = c.toNat + 32 := toNat_ofNat_valid hv
    have hc2 : ¬((65 ≤ (Char.ofNat (c.toNat + 32)).toNat &&
        (Char.ofNat (c.toNat + 32)).toNat ≤ 90) = true) := by
      rw [ht]
      simp only [Bool.and_eq_true, decide_eq_true_eq, not_and]
      omega
    rw [if_neg hc2]
  · rw [if_neg h, if_neg h]

theorem mem_collapseAux {c : Char} :
    ∀ (l : List Char) (b : Bool), c ∈ collapseAux b l →
      c = ' ' ∨ (c ∈ l ∧ isSpaceC c = false) := by
  intro l
  induction l with
  | nil => intro b h; cases h
  | cons x rest ih =>
    intro b h
    rw [collapseAux] at h
    by_cases hx : isSpaceC x
    · rw [if_pos hx] at h
      rcases b with _ | _
      · simp only [Bool.false_eq_true, if_false] at h
        rcases List.mem_cons.mp h with h1 | h1
        · exact Or.inl h1
        · rcases ih true h1 with h2 | ⟨h2, h3⟩
          · exact Or.inl h2
          · exact Or.inr ⟨List.mem_cons_of_mem _ h2, h3⟩
      · simp only [if_true] at h
        rcases ih true h with h2 | ⟨h2, h3⟩
        · exact Or.inl h2
        · exact Or.inr ⟨List.mem_cons_of_mem _ h2, h3⟩
    · rw [if_neg hx] at h
      rcases List.mem_cons.mp h with h1 | h1
      · exact Or.inr ⟨List.mem_cons.mpr (Or.inl h1), by rw [h1]; simpa using hx⟩
      · rcases ih false h1 with h2 | ⟨h2, h3⟩
        · exact Or.inl h2
        · exact Or.inr ⟨List.mem_cons_of_mem _ h2, h3⟩

theorem head_collapseAux_true :
    ∀ (l : List Char) (c : Char), (collapseAux true l).head? = some c →
      isSpaceC c = false := by
  intro l
  induction l with
  | nil => intro c h; cases h
  | cons x rest ih =>
    intro c h
    rw [collapseAux] at h
    by_cases hx : isSpaceC x
    · rw [if_pos hx, if_pos rfl] at h
      exact ih c h
    · rw [if_neg hx] at h
      simp only [List.head?_cons, Option.some.injEq] at h
      rw [← h]
      simpa using hx

theorem chain_collapseAux :
    ∀ (l : List Char) (b : Bool),
      List.Chain' (fun a a' => isSpaceC a = false ∨ isSpaceC a' = false)
        (collapseAux b l) := by
  intro l
  induction l with
  | nil => intro b; simp [collapseAux]
  | cons x rest ih =>
    intro b
    rw [collapseAux]
    by_cases hx : isSpaceC x
    · rw [if_pos hx]
      rcases b with _ | _
      · simp only [Bool.false_eq_true, if_false]
        rw [List.chain'_cons']
        refine ⟨?_, ih true⟩
        intro y hy
        exact Or.inr (head_collapseAux_true rest y hy)
      · simp only [if_true]
        exact ih true
    · rw [if_neg hx]
      rw [List.chain'_cons']
      refine ⟨fun y _ => Or.inl (by simpa using hx), ih false⟩

theorem trimRight_head (x : Char) (rest : List Char) :
    trimRight (x :: rest) = [] ∨ ∃ t, trimRight (x :: rest) = x :: t := by
  rw [trimRight]
  cases h : trimRight rest with
  | nil =>
    by_cases hx : isSpaceC x
    · rw [if_pos hx]; exact Or.inl rfl
    · rw [if_neg hx]; exact Or.inr ⟨[], rfl⟩
  | cons d t => exact Or.inr ⟨d :: t, rfl⟩

theorem mem_trimRight {c : Char} : ∀ (l : List Char), c ∈ trimRight l → c ∈ l := by
  intro l
  induction l with
  | nil => intro h; cases h
  | cons x rest ih =>
    intro h
    rw [trimRight] at h
    rcases hr : trimRight rest with _ | ⟨d, t⟩
    · rw [hr] at h
      by_cases hx : isSpaceC x
      · rw [if_pos hx] at h; cases h
      · rw [if_neg hx] at h
        rcases List.mem_singleton.mp h with rfl
        exact List.mem_cons_self _ _
    · rw [hr] at h
      rcases List.mem_cons.mp h with h1 | h1
      · exact List.mem_cons.mpr (Or.inl h1)
      · exact List.mem_cons_of_mem _ (ih (hr ▸ h1))

theorem chain_trimRight {R : Char → Char → Prop} :
    ∀ (l : List Char), List.Chain' R l → List.Chain' R (trimRight l) := by
  intro l
  induction l with
  | nil => intro _; simp [trimRight]
  | cons x rest ih =>
    intro h
    rw [List.chain'_cons'] at h
    rw [trimRight]
    rcases hr : trimRight rest with _ | ⟨d, t⟩
    · by_cases hx : isSpaceC x
      · rw [if_pos hx]; exact List.chain'_nil
      · rw [if_neg hx]; exact List.chain'_singleton x
    · rw [List.chain'_cons']
      refine ⟨?_, hr ▸ ih h.2⟩
      intro y hy
      simp only [List.head?_cons, Option.mem_def, Option.some.injEq] at hy
      subst hy
      rcases rest with _ | ⟨e, t'⟩
      · simp [trimRight] at hr
      · rcases trimRight_head e t' with h2 | ⟨t2, h2⟩
        · rw [h2] at hr; cases hr
        · rw [h2] at hr
          injection hr with h3 h4
          subst h3
          exact h.1 e (by simp)

theorem lastOk_trimRight :
    ∀ (l : List Char) (c : Char), (trimRight l).getLast? = some c →
      isSpaceC c = false := by
  intro l
  induction l with
  | nil => intro c h; cases h
  | cons x rest ih =>
    intro c h
    rw [trimRight] at h
    rcases hr : trimRight rest with _ | ⟨d, t⟩
    · rw [hr] at h
      by_cases hx : isSpaceC x
      · rw [if_pos hx] at h; cases h
      · rw [if_neg hx] at h
        simp only [List.getLast?_singleton, Option.some.injEq] at h
        rw [← h]
        simpa using hx
    · rw [hr] at h
      rw [List.getLast?_cons_cons] at h
      exact ih c (hr ▸ h)

theorem head_dropWhile (p : Char → Bool) :
    ∀ (l : List Char) (c : Char), (l.dropWhile p).head? = some c → p c = false := by
  intro l
  induction l with
  | nil => intro c h; cases h
  | cons x rest ih =>
    intro c h
    rw [List.dropWhile_cons] at h
    by_cases hx : p x
    · rw [if_pos (by simpa using hx)] at h
      exact ih c h
    · rw [if_neg (by simpa using hx)] at h
      simp only [List.head?_cons, Option.some.injEq] at h
      rw [← h]
      simpa using hx

theorem mem_dropWhile {c : Char} (p : Char → Bool) :
    ∀ (l : List Char), c ∈ l.dropWhile p → c ∈ l := by
  intro l
  induction l with
  | nil => intro h; cases h
  | cons x rest ih =>
    intro h
    rw [List.dropWhile_cons] at h
    by_cases hx : p x
    · rw [if_pos (by simpa using hx)] at h
      exact List.mem_cons_of_mem _ (ih h)
    · rw [if_neg (by simpa using hx)] at h
      exact h

theorem chain_dropWhile {R : Char → Char → Prop} (p : Char → Bool) :
    ∀ (l : List Char), List.Chain' R l → List.Chain' R (l.dropWhile p) := by
  intro l
  induction l with
  | nil => intro _; simp
  | cons x rest ih =>
    intro h
    rw [List.dropWhile_cons]
    rw [List.chain'_cons'] at h
    by_cases hx : p x
    · rw [if_pos (by simpa using hx)]
      exact ih h.2
    · rw [if_neg (by simpa using hx)]
      exact List.chain'_cons'.mpr h

theorem collapseAux_self :
    ∀ (l : List Char), (∀ c ∈ l, isSpaceC c = true → c = ' ') →
      List.Chain' (fun a a' => isSpaceC a = false ∨ isSpaceC a' = false) l →
      (collapseAux false l = l ∧
        ((∀ c, l.head? = some c → isSpaceC c = false) → collapseAux true l = l)) := by
  intro l
  induction l with
  | nil => intro _ _; exact ⟨rfl, fun _ => rfl⟩
  | cons x rest ih =>
    intro hsp hch
    rw [List.chain'_cons'] at hch
    obtain ⟨ihf, iht⟩ := ih (fun c hc h => hsp c (List.mem_cons_of_mem _ hc) h) hch.2
    by_cases hx : isSpaceC x
    · have hx' : x = ' ' := hsp x (List.mem_cons_self _ _) (by simpa using hx)
      have hrest : ∀ c, rest.head? = some c → isSpaceC c = false := by
        intro c hc
        rcases hch.1 c (by simp [hc]) with h1 | h1
        · rw [hx'] at h1; cases h1
        · exact h1
      constructor
      · rw [collapseAux, if_pos hx]
        simp only [Bool.false_eq_true, if_false]
        rw [iht hrest, hx']
      · intro hhead
        have := hhead x (by simp)
        rw [this] at hx
        cases hx
    · constructor
      · rw [collapseAux, if_neg hx, ihf]
      · intro _
        rw [collapseAux, if_neg hx, ihf]

theorem dropWhile_self (l : List Char)
    (h : ∀ c, l.head? = some c → isSpaceC c = false) :
    l.dropWhile isSpaceC = l := by
  cases l with
  | nil => rfl
  | cons x rest =>
    rw [List.dropWhile_cons, if_neg]
    simp [h x rfl]

theorem trimRight_self :
    ∀ (l : List Char), (∀ c, l.getLast? = some c → isSpaceC c = false) →
      trimRight l = l := by
  intro l
  induction l with
  | nil => intro _; rfl
  | cons x rest ih =>
    intro h
    rw [trimRight]
    rcases rest with _ | ⟨e, t⟩
    · simp only [trimRight]
      rw [if_neg]
      simp [h x rfl]
    · rw [ih]
      intro c hc
      exact h c (by rw [List.getLast?_cons_cons]; exact hc)

theorem map_self_of_mem {α : Type} (f : α → α) :
    ∀ (l : List α), (∀ c ∈ l, f c = c) → l.map f = l := by
  intro l
  induction l with
  | nil => intro _; rfl
  | cons x rest ih =>
    intro h
    rw [List.map_cons, h x (List.mem_cons_self _ _),
      ih (fun c hc => h c (List.mem_cons_of_mem _ hc))]

theorem normalizeText_chars (s : String) :
    ∀ c ∈ (normalizeText s).data,
      lowerC c = c ∧ (isWordC c || isSpaceC c) = true ∧ (isSpaceC c = true → c = ' ') := by
  intro c hc
  have hc1 : c ∈ collapseAux false
      ((s.data.map lowerC).filter (fun c => isWordC c || isSpaceC c)) :=
    mem_dropWhile isSpaceC _ (mem_trimRight _ hc)
  rcases mem_collapseAux _ false hc1 with rfl | ⟨hc2, hc3⟩
  · exact ⟨rfl, by decide, fun _ => rfl⟩
  · obtain ⟨hc4, hc5⟩ := List.mem_filter.mp hc2
    obtain ⟨a, _, rfl⟩ := List.mem_map.mp hc4
    refine ⟨lowerC_lowerC a, hc5, fun hsp => ?_⟩
    rw [hc3] at hsp
    cases hsp

theorem normalizeText_chain (s : String) :
    List.Chain' (fun a a' => isSpaceC a = false ∨ isSpaceC a' = false)
      (normalizeText s).data :=
  chain_trimRight _ (chain_dropWhile _ _ (chain_collapseAux _ false))

theorem normalizeText_head (s : String) :
    ∀ c, (normalizeText s).data.head? = some c → isSpaceC c = false := by
  intro c hc
  show isSpaceC c = false
  have : (normalizeText s).data = trimRight
      ((collapseAux false
        ((s.data.map lowerC).filter (fun c => isWordC c || isSpaceC c))).dropWhile
        isSpaceC) := rfl
  rw [this] at hc
  rcases hX : (collapseAux false
      ((s.data.map lowerC).filter (fun c => isWordC c || isSpaceC c))).dropWhile
      isSpaceC with _ | ⟨x, t⟩
  · rw [hX] at hc
    cases hc
  · rw [hX] at hc
    rcases trimRight_head x t with h2 | ⟨t2, h2⟩
    · rw [h2] at hc
      cases hc
    · rw [h2] at hc
      simp only [List.head?_cons, Option.some.injEq] at hc
      subst hc
      exact head_dropWhile isSpaceC _ x (by rw [hX]; rfl)

theorem normalizeText_last (s : String) :
    ∀ c, (normalizeText s).data.getLast? = some c → isSpaceC c = false :=
  fun c hc => lastOk_trimRight _ c hc

/-- C9 (confirmed): `normalizeText` is idempotent. -/
theorem normalizeText_idempotent (s : String) :
    normalizeText (normalizeText s) = normalizeText s := by
  have hchars := normalizeText_chars s
  have hchain := normalizeText_chain s
  conv_lhs => rw [normalizeText]
  rw [map_self_of_mem lowerC _ (fun c hc => (hchars c hc).1)]
  rw [List.filter_eq_self.mpr (fun c hc => (hchars c hc).2.1)]
  rw [(collapseAux_self _ (fun c hc => (hchars c hc).2.2) hchain).1]
  rw [trimChars, dropWhile_self _ (normalizeText_head s),
    trimRight_self _ (normalizeText_last s)]
